import Mathlib

/-!
Verification development for the clockifyclient data model and client helpers.

The definitions below are a shallow embedding of `clockifyclient/models.py`
and `clockifyclient/client.py`:

* Python object ids (`obj_id`) are `Option String` — `none` models a Python
  `None` id token.
* Python dicts keyed by `APIObjectID` (whose `__hash__`/`__eq__` delegate to
  the id token) are association lists looked up by token equality.
* Rate amounts are exact rationals (`Rat`); the source stores the result of a
  true division by 100.
* Fallible code (the substitution helper, which can raise `KeyError`) returns
  `Except String`.
-/

namespace Clockify

/-- Embedding of `APIObjectID` (models.py line 178): an object identified by an
opaque id token.  The token is `Option String` because the source constructs
`APIObjectID(None)` (e.g. `TimeEntry.init_from_dict` with a missing
`userId`). -/
structure APIObjectID where
  obj_id : Option String
deriving DecidableEq, Repr

/-- Embedding of `APIObjectID.__eq__` (models.py lines 190-202): `if other:`
means comparison against `None` (and only `None` among the argument types the
source documents) returns `False`; otherwise the id tokens are compared with
Python `==`, under which `None == None` is `True`. -/
def APIObjectID.eqPy (self : APIObjectID) (other : Option APIObjectID) : Bool :=
  match other with
  | none => false
  | some o => decide (self.obj_id = o.obj_id)

/-- Embedding of `APIObjectID.__ne__` (models.py lines 204-209). -/
def APIObjectID.nePy (self : APIObjectID) (other : Option APIObjectID) : Bool :=
  !(self.eqPy other)

/-- Embedding of `APIObjectID.__hash__` (models.py lines 211-213): the hash
delegates to the id token's own hash, so it is a function of the token alone.
The model represents the hash value by the token itself; only equality of
hash values matters to dict membership. -/
def APIObjectID.pyHash (self : APIObjectID) : Option String :=
  self.obj_id

/-- Embedding of `HourlyRate` (models.py lines 158-166): an amount and a
currency code.  Amounts are exact rationals standing for the Python floats
produced by the `/100` division at construction time. -/
structure HourlyRate where
  amount : Rat
  currency : String
deriving DecidableEq, Repr

/-- The `hourlyRate` sub-dict of an API response: integer minor-currency
amount plus currency code. -/
structure RateDict where
  amount : Int
  currency : String
deriving DecidableEq, Repr

/-- The body of `HourlyRate.init_from_dict` (models.py lines 173-174) once the
sub-dict is known to be present and truthy: divide the amount by 100 and keep
the currency unchanged. -/
def HourlyRate.ofDict (d : RateDict) : HourlyRate :=
  { amount := (d.amount : Rat) / 100, currency := d.currency }

/-- Embedding of `HourlyRate.init_from_dict` (models.py lines 168-176): the
`hourlyRate` key holds either a rate sub-dict or null; a null (falsy) value
makes the classmethod fall off the end and return `None`. -/
def HourlyRate.init_from_dict (hourlyRate : Option RateDict) : Option HourlyRate :=
  match hourlyRate with
  | some d => some (HourlyRate.ofDict d)
  | none => none

/-- A Python dict from `APIObjectID` to `HourlyRate`-or-`None`, as an
association list.  Keys compare by id token (dict lookup goes through
`APIObjectID.__hash__` and `APIObjectID.__eq__`, both functions of the
token). -/
abbrev RatesMap := List (APIObjectID × Option HourlyRate)

/-- Dict lookup by id token: `some v` models key membership with value `v`
(the value itself may be `none`, modelling a `None` entry). -/
def ratesLookup (m : RatesMap) (k : APIObjectID) : Option (Option HourlyRate) :=
  match m with
  | [] => none
  | (k0, v) :: rest => if k0.obj_id = k.obj_id then some v else ratesLookup rest k

/-- Python dict assignment `m[k] = v`: an existing key (by token equality)
keeps its position and gets the new value; a new key is appended. -/
def dictInsert (m : RatesMap) (k : APIObjectID) (v : Option HourlyRate) : RatesMap :=
  match m with
  | [] => [(k, v)]
  | (k0, v0) :: rest =>
    if k0.obj_id = k.obj_id then (k0, v) :: rest
    else (k0, v0) :: dictInsert rest k v

/-- Embedding of `Workspace` (models.py lines 257-263).  `hourly_rate` is an
`Option` because `Workspace.init_from_dict` stores the result of
`HourlyRate.init_from_dict`, which is `None` for a null `hourlyRate`
payload. -/
structure Workspace where
  obj_id : Option String
  name : String
  hourly_rate : Option HourlyRate
  forceProjects : Bool := false
  forceTasks : Bool := false
  forceTags : Bool := false
deriving DecidableEq, Repr

/-- Embedding of `User` (models.py lines 275-279). -/
structure User where
  obj_id : Option String
  name : String
  email : String
  hourly_rates : RatesMap
deriving DecidableEq, Repr

/-- Embedding of `Project` (models.py lines 310-314); `client` is the bare
client reference built from the `clientId` field. -/
structure Project where
  obj_id : Option String
  name : String
  client : APIObjectID
  hourly_rates : RatesMap
deriving DecidableEq, Repr

/-- The `APIObjectID` a `Workspace` presents as a dict key. -/
def Workspace.key (w : Workspace) : APIObjectID := ⟨w.obj_id⟩

/-- The `APIObjectID` a `User` presents as a dict key. -/
def User.key (u : User) : APIObjectID := ⟨u.obj_id⟩

/-- The `APIObjectID` a `Project` presents as a dict key. -/
def Project.key (p : Project) : APIObjectID := ⟨p.obj_id⟩

/-- One step of the source's resolution chain: the Python guard
`k in m.keys() and m[k]` succeeds exactly when the key is present with a
truthy (non-`None`) value; otherwise control falls to the next branch. -/
def rateStep (looked : Option (Option HourlyRate)) (fallback : Option HourlyRate) :
    Option HourlyRate :=
  match looked with
  | some (some r) => some r
  | _ => fallback

/-- Embedding of `User.get_hourly_rate` (models.py lines 297-305): the
if/elif/elif/else chain over the user's map keyed by the project, the
project's map keyed by the project, the user's map keyed by the workspace,
then the workspace default. -/
def User.get_hourly_rate (self : User) (workspace : Workspace) (project : Project) :
    Option HourlyRate :=
  rateStep (ratesLookup self.hourly_rates project.key)
    (rateStep (ratesLookup project.hourly_rates project.key)
      (rateStep (ratesLookup self.hourly_rates workspace.key)
        workspace.hourly_rate))

/-- Embedding of `Project.get_hourly_rate` (models.py lines 332-340): the
mirrored chain anchored at the project. -/
def Project.get_hourly_rate (self : Project) (workspace : Workspace) (user : User) :
    Option HourlyRate :=
  rateStep (ratesLookup self.hourly_rates user.key)
    (rateStep (ratesLookup self.hourly_rates self.key)
      (rateStep (ratesLookup user.hourly_rates workspace.key)
        workspace.hourly_rate))

/-- Resolution chain exactly as the specification words it (spec.md section
4.2, steps 1-4 for `resolve_rate_for_user`): a step is taken whenever the KEY
is present, with no condition on the value.  Used only to compare the source
behaviour against the spec's words. -/
def spec_resolve_rate_for_user (u : User) (w : Workspace) (p : Project) :
    Option HourlyRate :=
  match ratesLookup u.hourly_rates p.key with
  | some v => v
  | none =>
    match ratesLookup p.hourly_rates p.key with
    | some v => v
    | none =>
      match ratesLookup u.hourly_rates w.key with
      | some v => v
      | none => w.hourly_rate

/-- Mirrored chain as the specification words it (spec.md section 4.2, steps
1-4 for `resolve_rate_for_project`). -/
def spec_resolve_rate_for_project (p : Project) (w : Workspace) (u : User) :
    Option HourlyRate :=
  match ratesLookup p.hourly_rates u.key with
  | some v => v
  | none =>
    match ratesLookup p.hourly_rates p.key with
    | some v => v
    | none =>
      match ratesLookup u.hourly_rates w.key with
      | some v => v
      | none => w.hourly_rate

/-- A membership entry of a user or project API payload (the fields the
source reads: `userId`, `targetId`, `hourlyRate`).  `hourlyRate` is `none`
for a null or empty (falsy) value; the key itself is always present in the
payloads the source accepts (a missing key raises during parsing, outside
these claims). -/
structure MembershipDict where
  userId : String
  targetId : String
  hourlyRate : Option RateDict
deriving DecidableEq, Repr

/-- A user API payload as `User.init_from_dict` reads it. -/
structure UserDict where
  id : String
  name : String
  email : String
  memberships : List MembershipDict
deriving DecidableEq, Repr

/-- A project API payload as `Project.init_from_dict` reads it. -/
structure ProjectDict where
  id : String
  name : String
  clientId : String
  hourlyRate : Option RateDict
  memberships : List MembershipDict
deriving DecidableEq, Repr

/-- The membership loop shared by `User.init_from_dict` (models.py lines
291-294, keying by `targetId`) and `Project.init_from_dict` (models.py lines
326-329, keying by `userId`): an entry is added only when the membership's
`hourlyRate` is truthy, and then `HourlyRate.init_from_dict` on that truthy
sub-dict yields a real rate. -/
def addMembershipRates (key : MembershipDict → String) (m : RatesMap) :
    List MembershipDict → RatesMap
  | [] => m
  | mem :: rest =>
    addMembershipRates key
      (match mem.hourlyRate with
       | some rd => dictInsert m ⟨some (key mem)⟩ (some (HourlyRate.ofDict rd))
       | none => m) rest

/-- Embedding of `User.init_from_dict` (models.py lines 284-295). -/
def User.init_from_dict (d : UserDict) : User :=
  { obj_id := some d.id, name := d.name, email := d.email,
    hourly_rates := addMembershipRates (fun mem => mem.targetId) [] d.memberships }

/-- Embedding of `Project.init_from_dict` (models.py lines 319-330): the map
starts from the project's own id mapped to `HourlyRate.init_from_dict` of the
whole payload — which is `None` when the payload's `hourlyRate` is null —
then the membership loop adds user-keyed entries. -/
def Project.init_from_dict (d : ProjectDict) : Project :=
  { obj_id := some d.id, name := d.name, client := ⟨some d.clientId⟩,
    hourly_rates :=
      addMembershipRates (fun mem => mem.userId)
        [(⟨some d.id⟩, HourlyRate.init_from_dict d.hourlyRate)] d.memberships }

/-- Embedding of `Task` (models.py line 344): a named API object. -/
structure Task where
  obj_id : Option String
  name : String
deriving DecidableEq, Repr

/-- Embedding of `Tag` (models.py line 347): a named API object. -/
structure Tag where
  obj_id : Option String
  name : String
deriving DecidableEq, Repr

/-- A dynamically-typed value held by a `TimeEntry` relational field: either a
bare `APIObjectID` reference (as parsing produces) or a fully-populated
entity (as substitution produces).  Dict lookups use only the id token, which
is all that `APIObjectID.__eq__`/`__hash__` read off any of these. -/
inductive EntityV where
  | ref (i : APIObjectID)
  | user (u : User)
  | project (p : Project)
  | task (t : Task)
  | tag (t : Tag)
deriving DecidableEq, Repr

/-- The id token of a dynamically-typed entity value. -/
def EntityV.objId : EntityV → Option String
  | .ref i => i.obj_id
  | .user u => u.obj_id
  | .project p => p.obj_id
  | .task t => t.obj_id
  | .tag t => t.obj_id

/-- Embedding of `TimeEntry` (models.py lines 350-376).  `start` and `end_`
stand in for the datetimes (opaque to the claims here); `user`, `project`,
`task` and the `tags` elements are dynamically typed; `none` fields model
Python `None`. -/
structure TimeEntry where
  obj_id : Option String
  start : Int
  user : Option EntityV
  description : String := ""
  project : Option EntityV := none
  task : Option EntityV := none
  tags : Option (List EntityV) := none
  end_ : Option Int := none
deriving DecidableEq, Repr

/-- Lookup in a Python dict comprehension `d = z for z in l` keyed by
entities: membership tests token equality; on duplicate (token-equal) keys
the dict keeps the LAST inserted value, hence the last matching element. -/
def lastMatch {α : Type} (p : α → Bool) (l : List α) : Option α :=
  (l.filter p).getLast?

/-- Lookup of an id token in an entity list, with Python dict value
semantics (last token-equal element wins). -/
def lastById {α : Type} (f : α → Option String) (l : List α) (i : Option String) :
    Option α :=
  lastMatch (fun x => decide (f x = i)) l

/-- Truthiness of an optional Python list (or of `dict.values()` collections):
`None` and the empty list are falsy. -/
def optListTruthy {α : Type} : Option (List α) → Bool
  | some (_ :: _) => true
  | _ => false

/-- The `user` branch of the substitution loop (client.py lines 450-451):
under a truthy `users` argument, a field value whose token matches a key of
`users_dict` is replaced by that dict's (full `User`) value; `None` fields
and unmatched references are left untouched. -/
def newUserField (users : Option (List User)) (v : Option EntityV) : Option EntityV :=
  if optListTruthy users then
    match v with
    | some ev =>
      match lastById (fun u => u.obj_id) (users.getD []) ev.objId with
      | some u => some (EntityV.user u)
      | none => v
    | none => v
  else v

/-- The `project` branch (client.py lines 452-453), over the keys of
`projects_with_tasks`. -/
def newProjectField (pwt : Option (List (Project × List (Option Task))))
    (v : Option EntityV) : Option EntityV :=
  if optListTruthy pwt then
    match v with
    | some ev =>
      match lastById (fun p => p.obj_id) ((pwt.getD []).map Prod.fst) ev.objId with
      | some p => some (EntityV.project p)
      | none => v
    | none => v
  else v

/-- All task values of `projects_with_tasks` in iteration order, as
`tasks_dict` accumulates them (client.py lines 443-445); the session layer
puts literal `None` entries in these lists, so elements are `Option Task`. -/
def allTasks (pwt : List (Project × List (Option Task))) : List (Option Task) :=
  (pwt.map Prod.snd).flatten

/-- Key comparison of `tasks_dict`: the Python `None` key matches only a
`None` field (Python `None == None`); a `Task` key matches a field value with
an equal id token. -/
def taskKeyMatch (v : Option EntityV) (k : Option Task) : Bool :=
  match v, k with
  | none, none => true
  | some ev, some t => decide (t.obj_id = ev.objId)
  | _, _ => false

/-- Lookup of a field value among the task keys (last match wins, as for the
other dicts). -/
def lookupTaskKey (tasks : List (Option Task)) (v : Option EntityV) :
    Option (Option Task) :=
  lastMatch (taskKeyMatch v) tasks

/-- The `task` branch (client.py lines 454-455): guarded by the truthiness of
`projects_with_tasks`; a matching key replaces the field with the dict value
(which is the key object itself, possibly the literal `None`). -/
def newTaskField (pwt : Option (List (Project × List (Option Task))))
    (v : Option EntityV) : Option EntityV :=
  if optListTruthy pwt then
    match lookupTaskKey (allTasks (pwt.getD [])) v with
    | some kv => Option.map EntityV.task kv
    | none => v
  else v

/-- One tag of the tag loop (client.py lines 458-460).  The source's guard
`tag.__hash__() in [t.__hash__() for t in time_entry.tags]` compares the tag
against the entry's OWN tag list, so it is vacuously true, and every tag goes
through `tags_dict[tag]` — which raises `KeyError` when no authoritative tag
carries the tag's token. -/
def substTagOne (tags : List Tag) (tg : EntityV) : Except String EntityV :=
  match lastById (fun t => t.obj_id) tags tg.objId with
  | some t => Except.ok (EntityV.tag t)
  | none => Except.error "KeyError"

/-- Sequential effectful map: Python's `for` loop building a result list,
aborting at the first raised exception. -/
def mapExcept {α β : Type} (f : α → Except String β) : List α → Except String (List β)
  | [] => Except.ok []
  | a :: as =>
    match f a with
    | Except.error e => Except.error e
    | Except.ok b =>
      match mapExcept f as with
      | Except.error e => Except.error e
      | Except.ok bs => Except.ok (b :: bs)

/-- The `tags` branch (client.py lines 456-461): under truthy `tags` argument
and truthy entry tag list, every tag is looked up (the vacuous hash guard
filters nothing) and the list is replaced; otherwise the field is left
untouched. -/
def newTagsField (tags : Option (List Tag)) (v : Option (List EntityV)) :
    Except String (Option (List EntityV)) :=
  if optListTruthy tags && optListTruthy v then
    match mapExcept (substTagOne (tags.getD [])) (v.getD []) with
    | Except.ok l => Except.ok (some l)
    | Except.error e => Except.error e
  else Except.ok v

/-- The first three assignments of the per-entry iteration (client.py lines
450-455).  The source updates `user`, `project` and `task` in sequence on the
same entry; each assignment reads only its own field, so the sequential
updates equal this simultaneous record update. -/
def substFields (users : Option (List User))
    (pwt : Option (List (Project × List (Option Task)))) (te : TimeEntry) : TimeEntry :=
  { te with user := newUserField users te.user,
            project := newProjectField pwt te.project,
            task := newTaskField pwt te.task }

/-- The body of the per-entry iteration of `substitute_api_id_entities`
(client.py lines 449-462): the three reference fields are rewritten, then the
tag loop runs (and may raise). -/
def substituteEntry (users : Option (List User))
    (pwt : Option (List (Project × List (Option Task))))
    (tags : Option (List Tag)) (te : TimeEntry) : Except String TimeEntry :=
  match newTagsField tags (substFields users pwt te).tags with
  | Except.ok tgs => Except.ok { substFields users pwt te with tags := tgs }
  | Except.error e => Except.error e

/-- Embedding of `ClockifyAPI.substitute_api_id_entities` (client.py lines
416-463): a pure function of the entries and the three authoritative
collections; an uncaught `KeyError` in the tag loop aborts the whole call,
modelled by `Except.error`. -/
def ClockifyAPI.substitute_api_id_entities (time_entries : List TimeEntry)
    (users : Option (List User))
    (projects_with_tasks : Option (List (Project × List (Option Task))))
    (tags : Option (List Tag)) : Except String (List TimeEntry) :=
  mapExcept (substituteEntry users projects_with_tasks tags) time_entries

/-- Well-formedness of a rates map per the data model: no `None` values. -/
def RatesMap.allSome (m : RatesMap) : Bool :=
  m.all (fun kv => kv.2.isSome)

theorem lookup_isSome_of_allSome {m : RatesMap} {k : APIObjectID} {v : Option HourlyRate}
    (hm : m.allSome = true) (h : ratesLookup m k = some v) : v.isSome = true := by
  induction m with
  | nil => simp [ratesLookup] at h
  | cons kv rest ih =>
    obtain ⟨k0, v0⟩ := kv
    simp only [RatesMap.allSome, List.all_cons, Bool.and_eq_true] at hm
    rw [ratesLookup] at h
    split at h
    · cases h; exact hm.1
    · exact ih hm.2 h

theorem ratesLookup_token {m : RatesMap} {a b : APIObjectID}
    (h : a.obj_id = b.obj_id) : ratesLookup m a = ratesLookup m b := by
  induction m with
  | nil => rfl
  | cons kv rest ih => simp only [ratesLookup, h, ih]

/-- Claim C1: for well-formed inputs (rates maps carry no null values, per the
data model invariant of spec.md section 3), `User.get_hourly_rate` follows
exactly the four-step precedence chain of the specification: the user's map
keyed by the project, else the project's map keyed by the project, else the
user's map keyed by the workspace, else the workspace default.  In particular
a project-keyed entry of the user's map wins over everything else, since
`spec_resolve_rate_for_user` returns it at its first step. -/
theorem user_rate_resolution_matches_spec (u : User) (w : Workspace) (p : Project)
    (hu : u.hourly_rates.allSome = true) (hp : p.hourly_rates.allSome = true) :
    u.get_hourly_rate w p = spec_resolve_rate_for_user u w p := by
  unfold User.get_hourly_rate spec_resolve_rate_for_user
  cases h1 : ratesLookup u.hourly_rates p.key with
  | some v =>
    obtain ⟨r, rfl⟩ := Option.isSome_iff_exists.mp (lookup_isSome_of_allSome hu h1)
    rfl
  | none =>
    cases h2 : ratesLookup p.hourly_rates p.key with
    | some v =>
      obtain ⟨r, rfl⟩ := Option.isSome_iff_exists.mp (lookup_isSome_of_allSome hp h2)
      rfl
    | none =>
      cases h3 : ratesLookup u.hourly_rates w.key with
      | some v =>
        obtain ⟨r, rfl⟩ :=
          Option.isSome_iff_exists.mp (lookup_isSome_of_allSome hu h3)
        rfl
      | none => rfl

/-- Witness for C1, on the spec's own scenario (spec.md section 8): user has
project-keyed 10 USD, project has its own 5 USD default, workspace default is
1 RUR; the resolver agrees with the spec chain (both return 10 USD). -/
theorem user_rate_resolution_matches_spec_witness :
    User.get_hourly_rate
        { obj_id := some "u1", name := "U", email := "u@x", hourly_rates :=
            [(⟨some "p1"⟩, some { amount := 10, currency := "USD" })] }
        { obj_id := some "w1", name := "W",
          hourly_rate := some { amount := 1, currency := "RUR" } }
        { obj_id := some "p1", name := "P", client := ⟨some "c1"⟩, hourly_rates :=
            [(⟨some "p1"⟩, some { amount := 5, currency := "USD" })] }
      = spec_resolve_rate_for_user
          { obj_id := some "u1", name := "U", email := "u@x", hourly_rates :=
              [(⟨some "p1"⟩, some { amount := 10, currency := "USD" })] }
          { obj_id := some "w1", name := "W",
            hourly_rate := some { amount := 1, currency := "RUR" } }
          { obj_id := some "p1", name := "P", client := ⟨some "c1"⟩, hourly_rates :=
              [(⟨some "p1"⟩, some { amount := 5, currency := "USD" })] } :=
  user_rate_resolution_matches_spec _ _ _ (by decide) (by decide)

/-- Claim C2: for well-formed inputs, `Project.get_hourly_rate` follows
exactly the mirrored four-step chain: the project's map keyed by the user,
else the project's map keyed by the project itself, else the user's map keyed
by the workspace, else the workspace default. -/
theorem project_rate_resolution_matches_spec (p : Project) (w : Workspace) (u : User)
    (hp : p.hourly_rates.allSome = true) (hu : u.hourly_rates.allSome = true) :
    p.get_hourly_rate w u = spec_resolve_rate_for_project p w u := by
  unfold Project.get_hourly_rate spec_resolve_rate_for_project
  cases h1 : ratesLookup p.hourly_rates u.key with
  | some v =>
    obtain ⟨r, rfl⟩ := Option.isSome_iff_exists.mp (lookup_isSome_of_allSome hp h1)
    rfl
  | none =>
    cases h2 : ratesLookup p.hourly_rates p.key with
    | some v =>
      obtain ⟨r, rfl⟩ := Option.isSome_iff_exists.mp (lookup_isSome_of_allSome hp h2)
      rfl
    | none =>
      cases h3 : ratesLookup u.hourly_rates w.key with
      | some v =>
        obtain ⟨r, rfl⟩ :=
          Option.isSome_iff_exists.mp (lookup_isSome_of_allSome hu h3)
        rfl
      | none => rfl

/-- Witness for C2, on the spec's scenario: the project's map is keyed only by
the project's own id, so resolution for the user falls to the project default
(5 USD), and the embedding agrees with the spec chain there. -/
theorem project_rate_resolution_matches_spec_witness :
    Project.get_hourly_rate
        { obj_id := some "p1", name := "P", client := ⟨some "c1"⟩, hourly_rates :=
            [(⟨some "p1"⟩, some { amount := 5, currency := "USD" })] }
        { obj_id := some "w1", name := "W",
          hourly_rate := some { amount := 1, currency := "RUR" } }
        { obj_id := some "u1", name := "U", email := "u@x", hourly_rates :=
            [(⟨some "p1"⟩, some { amount := 10, currency := "USD" })] }
      = spec_resolve_rate_for_project
          { obj_id := some "p1", name := "P", client := ⟨some "c1"⟩, hourly_rates :=
              [(⟨some "p1"⟩, some { amount := 5, currency := "USD" })] }
          { obj_id := some "w1", name := "W",
            hourly_rate := some { amount := 1, currency := "RUR" } }
          { obj_id := some "u1", name := "U", email := "u@x", hourly_rates :=
              [(⟨some "p1"⟩, some { amount := 10, currency := "USD" })] } :=
  project_rate_resolution_matches_spec _ _ _ (by decide) (by decide)

theorem rateStep_isSome {looked : Option (Option HourlyRate)} {f : Option HourlyRate}
    (hf : f.isSome = true) : (rateStep looked f).isSome = true := by
  match looked with
  | some (some r) => rfl
  | some none => exact hf
  | none => exact hf

/-- Claim C3: whenever the workspace carries a default rate, both resolvers
are total and return a rate — every branch of the chain either returns a map
entry or falls through, terminating at the workspace default.  The embedded
functions are structurally recursive, so the chain always terminates and no
exception path exists. -/
theorem rate_resolution_total (u : User) (w : Workspace) (p : Project) (r : HourlyRate)
    (hw : w.hourly_rate = some r) :
    (u.get_hourly_rate w p).isSome = true ∧ (p.get_hourly_rate w u).isSome = true := by
  have hs : w.hourly_rate.isSome = true := by rw [hw]; rfl
  exact ⟨rateStep_isSome (rateStep_isSome (rateStep_isSome hs)),
         rateStep_isSome (rateStep_isSome (rateStep_isSome hs))⟩

/-- Witness for C3, at inputs whose maps hold no relevant entries: both
resolvers produce a rate. -/
theorem rate_resolution_total_witness :
    (User.get_hourly_rate
        { obj_id := some "u1", name := "U", email := "u@x", hourly_rates := [] }
        { obj_id := some "w1", name := "W",
          hourly_rate := some { amount := 50, currency := "GBP" } }
        { obj_id := some "p1", name := "P", client := ⟨some "c1"⟩,
          hourly_rates := [] }).isSome = true ∧
    (Project.get_hourly_rate
        { obj_id := some "p1", name := "P", client := ⟨some "c1"⟩, hourly_rates := [] }
        { obj_id := some "w1", name := "W",
          hourly_rate := some { amount := 50, currency := "GBP" } }
        { obj_id := some "u1", name := "U", email := "u@x",
          hourly_rates := [] }).isSome = true :=
  rate_resolution_total _ _ _ { amount := 50, currency := "GBP" } rfl

/-- Claim C4: identity objects compare equal exactly when their id tokens are
equal (second conjunct, for an arbitrary third object), comparison against an
absent value is `False` without any error, the hash depends only on the
token, and two objects with the same token are interchangeable as keys of any
rates mapping. -/
theorem identity_eq_hash_by_token (a b c : APIObjectID) (m : RatesMap)
    (h : a.obj_id = b.obj_id) :
    a.eqPy (some b) = true ∧
    a.eqPy (some c) = decide (a.obj_id = c.obj_id) ∧
    a.eqPy none = false ∧
    a.pyHash = b.pyHash ∧
    ratesLookup m a = ratesLookup m b := by
  refine ⟨?_, rfl, rfl, h, ratesLookup_token h⟩
  simp [APIObjectID.eqPy, h]

/-- Witness for C4, on the spec's test vector: `Identity("123")` equals
`Identity("123")`, does not equal `Identity("456")`, never equals an absent
value, and hashes/keys agree for equal tokens. -/
theorem identity_eq_hash_by_token_witness :
    APIObjectID.eqPy ⟨some "123"⟩ (some ⟨some "123"⟩) = true ∧
    APIObjectID.eqPy ⟨some "123"⟩ (some ⟨some "456"⟩) =
      decide ((⟨some "123"⟩ : APIObjectID).obj_id = (⟨some "456"⟩ : APIObjectID).obj_id) ∧
    APIObjectID.eqPy ⟨some "123"⟩ none = false ∧
    APIObjectID.pyHash ⟨some "123"⟩ = APIObjectID.pyHash ⟨some "123"⟩ ∧
    ratesLookup [] ⟨some "123"⟩ = ratesLookup [] ⟨some "123"⟩ :=
  identity_eq_hash_by_token ⟨some "123"⟩ ⟨some "123"⟩ ⟨some "456"⟩ [] rfl

/-- Counterexample to claim C9 as stated: two identity objects that BOTH have
a null id token compare equal (Python `None == None` is `True`), not
"not equal" — refuting the claim that any comparison involving a null id
returns false. -/
theorem both_null_ids_equal_cex :
    APIObjectID.eqPy ⟨none⟩ (some ⟨none⟩) = true := by decide

/-- Claim C9 as amended: when exactly one of the two identity objects has a
null id token, the comparison is a defined no-op returning "not equal" — in
both argument orders, through `__eq__` (false) and through `__ne__` (true) —
and comparison against an absent value also returns false; no path raises
(both-null tokens instead compare equal, see the counterexample). -/
theorem single_null_id_not_equal (a b : APIObjectID)
    (h : (a.obj_id = none ∧ b.obj_id ≠ none) ∨ (a.obj_id ≠ none ∧ b.obj_id = none)) :
    a.eqPy (some b) = false ∧ b.eqPy (some a) = false ∧
    a.nePy (some b) = true ∧ b.nePy (some a) = true ∧
    a.eqPy none = false ∧ b.eqPy none = false := by
  have hne : a.obj_id ≠ b.obj_id := by
    rcases h with ⟨h1, h2⟩ | ⟨h1, h2⟩
    · rw [h1]; exact fun he => h2 he.symm
    · rw [h2]; exact h1
  have e1 : a.eqPy (some b) = false := decide_eq_false hne
  have e2 : b.eqPy (some a) = false := decide_eq_false fun he => hne he.symm
  refine ⟨e1, e2, ?_, ?_, rfl, rfl⟩
  · unfold APIObjectID.nePy
    rw [e1]
    rfl
  · unfold APIObjectID.nePy
    rw [e2]
    rfl

/-- Witness for amended C9: a null-id object against `Identity("123")`, in
both orders and through both comparison operators. -/
theorem single_null_id_not_equal_witness :
    APIObjectID.eqPy ⟨none⟩ (some ⟨some "123"⟩) = false ∧
    APIObjectID.eqPy ⟨some "123"⟩ (some ⟨none⟩) = false ∧
    APIObjectID.nePy ⟨none⟩ (some ⟨some "123"⟩) = true ∧
    APIObjectID.nePy ⟨some "123"⟩ (some ⟨none⟩) = true ∧
    APIObjectID.eqPy ⟨none⟩ none = false ∧
    APIObjectID.eqPy ⟨some "123"⟩ none = false :=
  single_null_id_not_equal ⟨none⟩ ⟨some "123"⟩ (Or.inl ⟨rfl, by decide⟩)

theorem rateStep_none {looked : Option (Option HourlyRate)} {f : Option HourlyRate}
    (h : rateStep looked f = none) : f = none := by
  unfold rateStep at h
  split at h
  · cases h
  · exact h

/-- Claim C10: a rates-map entry whose value is `None` is treated as absent at
whichever precedence level it occurs — a null entry at a level makes the
resolver equal to the chain starting at the NEXT level (first four conjuncts,
one per lookup position of the two resolvers; the mirrored resolver shares
levels 2 and 3 with the user resolver), so a real rate at a later level is
still found.  The last two conjuncts state that the resolvers never return a
null rate from an override map: a `none` result can only be the workspace
default itself. -/
theorem null_rate_entries_fall_through (u : User) (w : Workspace) (p : Project) :
    (ratesLookup u.hourly_rates p.key = some none →
      u.get_hourly_rate w p =
        rateStep (ratesLookup p.hourly_rates p.key)
          (rateStep (ratesLookup u.hourly_rates w.key) w.hourly_rate)) ∧
    (ratesLookup p.hourly_rates p.key = some none →
      rateStep (ratesLookup p.hourly_rates p.key)
          (rateStep (ratesLookup u.hourly_rates w.key) w.hourly_rate) =
        rateStep (ratesLookup u.hourly_rates w.key) w.hourly_rate) ∧
    (ratesLookup u.hourly_rates w.key = some none →
      rateStep (ratesLookup u.hourly_rates w.key) w.hourly_rate = w.hourly_rate) ∧
    (ratesLookup p.hourly_rates u.key = some none →
      p.get_hourly_rate w u =
        rateStep (ratesLookup p.hourly_rates p.key)
          (rateStep (ratesLookup u.hourly_rates w.key) w.hourly_rate)) ∧
    ((u.get_hourly_rate w p).isSome = true ∨ w.hourly_rate = none) ∧
    ((p.get_hourly_rate w u).isSome = true ∨ w.hourly_rate = none) := by
  refine ⟨fun h1 => ?_, fun h2 => ?_, fun h3 => ?_, fun h4 => ?_, ?_, ?_⟩
  · unfold User.get_hourly_rate
    rw [h1]
    rfl
  · rw [h2]
    rfl
  · rw [h3]
    rfl
  · unfold Project.get_hourly_rate
    rw [h4]
    rfl
  · cases hg : u.get_hourly_rate w p with
    | some r => exact Or.inl rfl
    | none =>
      unfold User.get_hourly_rate at hg
      exact Or.inr (rateStep_none (rateStep_none (rateStep_none hg)))
  · cases hg : p.get_hourly_rate w u with
    | some r => exact Or.inl rfl
    | none =>
      unfold Project.get_hourly_rate at hg
      exact Or.inr (rateStep_none (rateStep_none (rateStep_none hg)))

/-- Witness for C10, exercising the mixed case: the user's map holds a NULL
entry keyed by the project, the project's own map holds a REAL 42 USD default;
the first fall-through conjunct of the theorem (discharged at this input)
shows the resolver equals the chain from level 2, which returns the 42 USD
rate, not the workspace default. -/
theorem null_rate_entries_fall_through_witness :
    User.get_hourly_rate
        { obj_id := some "u1", name := "U", email := "u@x",
          hourly_rates := [(⟨some "p1"⟩, none)] }
        { obj_id := some "w1", name := "W",
          hourly_rate := some { amount := 7, currency := "EUR" } }
        { obj_id := some "p1", name := "P", client := ⟨some "c1"⟩,
          hourly_rates := [(⟨some "p1"⟩, some { amount := 42, currency := "USD" })] }
      = some { amount := 42, currency := "USD" } :=
  ((null_rate_entries_fall_through
      { obj_id := some "u1", name := "U", email := "u@x",
        hourly_rates := [(⟨some "p1"⟩, none)] }
      { obj_id := some "w1", name := "W",
        hourly_rate := some { amount := 7, currency := "EUR" } }
      { obj_id := some "p1", name := "P", client := ⟨some "c1"⟩,
        hourly_rates := [(⟨some "p1"⟩, some { amount := 42, currency := "USD" })] }).1
    (by decide)).trans (by decide)

theorem all_dictInsert (P : APIObjectID × Option HourlyRate → Bool) (m : RatesMap)
    (k : APIObjectID) (v : Option HourlyRate)
    (hv : ∀ k0 : APIObjectID, P (k0, v) = true) (hm : m.all P = true) :
    (dictInsert m k v).all P = true := by
  induction m with
  | nil => simp [dictInsert, hv]
  | cons kv rest ih =>
    obtain ⟨k0, v0⟩ := kv
    simp only [List.all_cons, Bool.and_eq_true] at hm
    rw [dictInsert]
    split
    · simp only [List.all_cons, Bool.and_eq_true]
      exact ⟨hv k0, hm.2⟩
    · simp only [List.all_cons, Bool.and_eq_true]
      exact ⟨hm.1, ih hm.2⟩

theorem all_addMembershipRates (P : APIObjectID × Option HourlyRate → Bool)
    (key : MembershipDict → String) (ms : List MembershipDict) (m : RatesMap)
    (hv : ∀ (k0 : APIObjectID) (rd : RateDict), P (k0, some (HourlyRate.ofDict rd)) = true)
    (hm : m.all P = true) :
    (addMembershipRates key m ms).all P = true := by
  induction ms generalizing m with
  | nil => exact hm
  | cons mem rest ih =>
    rw [addMembershipRates]
    cases hmem : mem.hourlyRate with
    | none => simp only [hmem]; exact ih m hm
    | some rd =>
      simp only [hmem]
      exact ih _ (all_dictInsert P m ⟨some (key mem)⟩ _ (fun k0 => hv k0 rd) hm)

/-- Counterexample to claim C7 as stated: a project payload whose own
`hourlyRate` is null still receives a map entry keyed by the project's own
id, with value `None` — the produced rates mapping contains a null value
entry, refuting "absent rate implies absent key". -/
theorem project_rates_null_entry_cex :
    ((Project.init_from_dict
        { id := "p1", name := "proj", clientId := "c1",
          hourlyRate := none, memberships := [] }).hourly_rates).allSome = false := by
  decide

/-- Claim C7 as amended: a user's constructed rates mapping never contains a
null value (membership entries are only added for truthy rates); a project's
constructed mapping can hold a null value only at the single entry keyed by
the project's own id, and only when the payload's own `hourlyRate` is null —
every other entry carries a real rate. -/
theorem rates_maps_null_values_located (d : UserDict) (e : ProjectDict) :
    (User.init_from_dict d).hourly_rates.allSome = true ∧
    (Project.init_from_dict e).hourly_rates.all
      (fun kv => kv.2.isSome ||
        (decide (kv.1 = ⟨some e.id⟩) && decide (e.hourlyRate = none))) = true := by
  constructor
  · exact all_addMembershipRates _ _ _ _ (fun k0 rd => rfl) rfl
  · refine all_addMembershipRates _ _ _ _ (fun k0 rd => by simp) ?_
    cases he : e.hourlyRate with
    | none => simp [HourlyRate.init_from_dict]
    | some rd => simp [HourlyRate.init_from_dict]

/-- Counterexample to claim C8 as stated: the constructor performs no sign
check, so an API dict carrying minor-unit amount -100 yields a stored amount
of exactly -1, which is negative — "always non-negative" fails on the code
(while the divide-by-100 relation still holds there). -/
theorem hourly_rate_negative_amount_cex :
    (HourlyRate.ofDict { amount := -100, currency := "USD" }).amount = -1 ∧
    (HourlyRate.ofDict { amount := -100, currency := "USD" }).amount < 0 := by
  constructor <;> norm_num [HourlyRate.ofDict]

/-- Claim C8 as amended: for EVERY response dict — any sign — the constructed
rate stores exactly the response's minor-currency amount divided by 100 and
the currency code unchanged; the stored amount is non-negative whenever the
response's amount is non-negative (the code validates no sign, so
non-negativity is inherited from the input, not enforced). -/
theorem hourly_rate_amount_division (d : RateDict) :
    (HourlyRate.ofDict d).amount = (d.amount : Rat) / 100 ∧
    (HourlyRate.ofDict d).currency = d.currency ∧
    (0 ≤ d.amount → 0 ≤ (HourlyRate.ofDict d).amount) := by
  refine ⟨rfl, rfl, fun h => ?_⟩
  have h0 : (0 : Rat) ≤ (d.amount : Rat) := by exact_mod_cast h
  exact div_nonneg h0 (by norm_num)

/-- Witness for amended C8 (none is required, the theorem's binder is not a
hypothesis): 2500 minor units become 25 major units with the currency kept,
and -100 minor units are still divided by 100, by the same theorem. -/
theorem hourly_rate_amount_division_witness :
    ((HourlyRate.ofDict { amount := 2500, currency := "EUR" }).amount =
        ((2500 : Int) : Rat) / 100 ∧
      (HourlyRate.ofDict { amount := 2500, currency := "EUR" }).currency = "EUR" ∧
      (0 ≤ (2500 : Int) →
        0 ≤ (HourlyRate.ofDict { amount := 2500, currency := "EUR" }).amount)) ∧
    (HourlyRate.ofDict { amount := -100, currency := "USD" }).amount =
      ((-100 : Int) : Rat) / 100 :=
  ⟨hourly_rate_amount_division { amount := 2500, currency := "EUR" },
   (hourly_rate_amount_division { amount := -100, currency := "USD" }).1⟩

theorem lastMatch_pred {α : Type} {p : α → Bool} {l : List α} {a : α}
    (h : lastMatch p l = some a) : p a = true :=
  (List.mem_filter.mp (List.mem_of_getLast?_eq_some h)).2

theorem lastById_fix {α : Type} {f : α → Option String} {l : List α}
    {i : Option String} {a : α} (h : lastById f l i = some a) :
    lastById f l (f a) = some a := by
  have hp := lastMatch_pred (p := fun x => decide (f x = i)) (l := l) (a := a) h
  have hfa : f a = i := of_decide_eq_true hp
  rw [hfa]
  exact h

theorem optListTruthy_eq {α : Type} {v : Option (List α)}
    (h : optListTruthy v = true) : ∃ a as, v = some (a :: as) := by
  match v with
  | none => simp [optListTruthy] at h
  | some [] => simp [optListTruthy] at h
  | some (a :: as) => exact ⟨a, as, rfl⟩

theorem newUserField_some (users : Option (List User))
    (hu : optListTruthy users = true) (ev : EntityV) :
    newUserField users (some ev) =
      match lastById (fun u : User => u.obj_id) (users.getD []) ev.objId with
      | some u => some (EntityV.user u)
      | none => some ev := by
  unfold newUserField
  rw [if_pos hu]

theorem newUserField_none (users : Option (List User)) :
    newUserField users none = none := by
  unfold newUserField
  split
  · rfl
  · rfl

theorem newUserField_false (users : Option (List User))
    (hu : optListTruthy users = false) (v : Option EntityV) :
    newUserField users v = v := by
  unfold newUserField
  rw [if_neg (by simp [hu])]

theorem newUserField_idem (users : Option (List User)) (v : Option EntityV) :
    newUserField users (newUserField users v) = newUserField users v := by
  cases ht : optListTruthy users with
  | false => simp only [newUserField_false users ht]
  | true =>
    cases v with
    | none => simp only [newUserField_none]
    | some ev =>
      rw [newUserField_some users ht ev]
      cases hl : lastById (fun u : User => u.obj_id) (users.getD []) ev.objId with
      | none =>
        simp only [hl]
        rw [newUserField_some users ht ev, hl]
      | some u =>
        simp only [hl]
        rw [newUserField_some users ht (EntityV.user u)]
        have h2 : lastById (fun u0 : User => u0.obj_id) (users.getD [])
            (EntityV.user u).objId = some u := lastById_fix hl
        rw [h2]

theorem newProjectField_some (pwt : Option (List (Project × List (Option Task))))
    (hp : optListTruthy pwt = true) (ev : EntityV) :
    newProjectField pwt (some ev) =
      match lastById (fun p : Project => p.obj_id) ((pwt.getD []).map Prod.fst)
          ev.objId with
      | some p => some (EntityV.project p)
      | none => some ev := by
  unfold newProjectField
  rw [if_pos hp]

theorem newProjectField_none (pwt : Option (List (Project × List (Option Task)))) :
    newProjectField pwt none = none := by
  unfold newProjectField
  split
  · rfl
  · rfl

theorem newProjectField_false (pwt : Option (List (Project × List (Option Task))))
    (hp : optListTruthy pwt = false) (v : Option EntityV) :
    newProjectField pwt v = v := by
  unfold newProjectField
  rw [if_neg (by simp [hp])]

theorem newProjectField_idem (pwt : Option (List (Project × List (Option Task))))
    (v : Option EntityV) :
    newProjectField pwt (newProjectField pwt v) = newProjectField pwt v := by
  cases ht : optListTruthy pwt with
  | false => simp only [newProjectField_false pwt ht]
  | true =>
    cases v with
    | none => simp only [newProjectField_none]
    | some ev =>
      rw [newProjectField_some pwt ht ev]
      cases hl : lastById (fun p : Project => p.obj_id) ((pwt.getD []).map Prod.fst)
          ev.objId with
      | none =>
        simp only [hl]
        rw [newProjectField_some pwt ht ev, hl]
      | some q =>
        simp only [hl]
        rw [newProjectField_some pwt ht (EntityV.project q)]
        have h2 : lastById (fun p0 : Project => p0.obj_id) ((pwt.getD []).map Prod.fst)
            (EntityV.project q).objId = some q := lastById_fix hl
        rw [h2]

theorem lookupTaskKey_fix {tasks : List (Option Task)} {v : Option EntityV}
    {kv : Option Task} (h : lookupTaskKey tasks v = some kv) :
    lookupTaskKey tasks (Option.map EntityV.task kv) = some kv := by
  have hp : taskKeyMatch v kv = true := lastMatch_pred h
  cases v with
  | none =>
    cases kv with
    | none => exact h
    | some t => simp [taskKeyMatch] at hp
  | some ev =>
    cases kv with
    | none => simp [taskKeyMatch] at hp
    | some t =>
      have ht : t.obj_id = ev.objId := of_decide_eq_true hp
      have hfun : taskKeyMatch (some (EntityV.task t)) = taskKeyMatch (some ev) := by
        funext k
        cases k with
        | none => rfl
        | some t2 => simp [taskKeyMatch, EntityV.objId, ht]
      unfold lookupTaskKey at h ⊢
      show lastMatch (taskKeyMatch (some (EntityV.task t))) tasks = some (some t)
      rw [hfun]
      exact h

theorem newTaskField_calc (pwt : Option (List (Project × List (Option Task))))
    (hp : optListTruthy pwt = true) (v : Option EntityV) :
    newTaskField pwt v =
      match lookupTaskKey (allTasks (pwt.getD [])) v with
      | some kv => Option.map EntityV.task kv
      | none => v := by
  unfold newTaskField
  rw [if_pos hp]

theorem newTaskField_false (pwt : Option (List (Project × List (Option Task))))
    (hp : optListTruthy pwt = false) (v : Option EntityV) :
    newTaskField pwt v = v := by
  unfold newTaskField
  rw [if_neg (by simp [hp])]

theorem newTaskField_idem (pwt : Option (List (Project × List (Option Task))))
    (v : Option EntityV) :
    newTaskField pwt (newTaskField pwt v) = newTaskField pwt v := by
  cases ht : optListTruthy pwt with
  | false => simp only [newTaskField_false pwt ht]
  | true =>
    rw [newTaskField_calc pwt ht v]
    cases hl : lookupTaskKey (allTasks (pwt.getD [])) v with
    | none =>
      simp only [hl]
      rw [newTaskField_calc pwt ht v, hl]
    | some kv =>
      simp only [hl]
      rw [newTaskField_calc pwt ht (Option.map EntityV.task kv)]
      rw [lookupTaskKey_fix hl]

theorem substTagOne_fix {tags : List Tag} {tg b : EntityV}
    (h : substTagOne tags tg = Except.ok b) : substTagOne tags b = Except.ok b := by
  unfold substTagOne at h ⊢
  cases hl : lastById (fun t : Tag => t.obj_id) tags tg.objId with
  | none => rw [hl] at h; cases h
  | some t =>
    rw [hl] at h
    cases h
    have h2 : lastById (fun t0 : Tag => t0.obj_id) tags (EntityV.tag t).objId = some t :=
      lastById_fix hl
    rw [h2]

theorem mapExcept_nonempty {α β : Type} {f : α → Except String β} {a : α}
    {as : List α} {l : List β} (h : mapExcept f (a :: as) = Except.ok l) :
    l ≠ [] := by
  rw [mapExcept] at h
  cases hfa : f a with
  | error e => rw [hfa] at h; cases h
  | ok b =>
    rw [hfa] at h
    cases hrest : mapExcept f as with
    | error e => rw [hrest] at h; cases h
    | ok bs => rw [hrest] at h; cases h; simp

theorem mapExcept_fix {α : Type} {f : α → Except String α}
    (hf : ∀ a b, f a = Except.ok b → f b = Except.ok b) :
    ∀ {l l2 : List α}, mapExcept f l = Except.ok l2 → mapExcept f l2 = Except.ok l2 := by
  intro l
  induction l with
  | nil =>
    intro l2 h
    rw [mapExcept] at h
    cases h
    rfl
  | cons a as ih =>
    intro l2 h
    rw [mapExcept] at h
    cases hfa : f a with
    | error e => rw [hfa] at h; cases h
    | ok b =>
      rw [hfa] at h
      cases hrest : mapExcept f as with
      | error e => rw [hrest] at h; cases h
      | ok bs =>
        rw [hrest] at h
        cases h
        rw [mapExcept, hf a b hfa, ih hrest]

theorem newTagsField_fix {tags : Option (List Tag)} {v v2 : Option (List EntityV)}
    (h : newTagsField tags v = Except.ok v2) :
    newTagsField tags v2 = Except.ok v2 := by
  unfold newTagsField at h ⊢
  by_cases hc : (optListTruthy tags && optListTruthy v) = true
  · rw [if_pos hc] at h
    obtain ⟨htags, hv⟩ := Bool.and_eq_true_iff.mp hc
    obtain ⟨a, as, rfl⟩ := optListTruthy_eq hv
    cases hm : mapExcept (substTagOne (tags.getD [])) ((some (a :: as)).getD []) with
    | error e => rw [hm] at h; cases h
    | ok l =>
      rw [hm] at h
      cases h
      have hl : l ≠ [] := mapExcept_nonempty (by simpa using hm)
      have hv2 : optListTruthy (some l) = true := by
        cases l with
        | nil => exact absurd rfl hl
        | cons b bs => rfl
      rw [if_pos (by rw [htags, hv2]; rfl)]
      have hfix := mapExcept_fix (fun x y hxy => substTagOne_fix hxy) hm
      simp only [Option.getD_some] at hfix ⊢
      rw [hfix]
  · rw [if_neg hc] at h
    cases h
    rw [if_neg hc]

theorem substFields_proj_fix (users : Option (List User))
    (pwt : Option (List (Project × List (Option Task)))) (te2 : TimeEntry)
    (hu : newUserField users te2.user = te2.user)
    (hp : newProjectField pwt te2.project = te2.project)
    (htk : newTaskField pwt te2.task = te2.task) :
    substFields users pwt te2 = te2 := by
  unfold substFields
  rw [hu, hp, htk]

theorem substituteEntry_fix {users : Option (List User)}
    {pwt : Option (List (Project × List (Option Task)))} {tags : Option (List Tag)}
    {te te2 : TimeEntry} (h : substituteEntry users pwt tags te = Except.ok te2) :
    substituteEntry users pwt tags te2 = Except.ok te2 := by
  unfold substituteEntry at h ⊢
  cases htg : newTagsField tags (substFields users pwt te).tags with
  | error e => rw [htg] at h; cases h
  | ok tgs =>
    rw [htg] at h
    cases h
    have hsf : substFields users pwt { substFields users pwt te with tags := tgs }
        = { substFields users pwt te with tags := tgs } :=
      substFields_proj_fix users pwt _
        (newUserField_idem users te.user)
        (newProjectField_idem pwt te.project)
        (newTaskField_idem pwt te.task)
    rw [hsf]
    have h2 : newTagsField tags tgs = Except.ok tgs := newTagsField_fix htg
    have h3 : ({ substFields users pwt te with tags := tgs } : TimeEntry).tags = tgs := rfl
    rw [h3, h2]

/-- Claim C5 fails on the code: a time entry whose single tag references id
"t1", substituted against an authoritative tag list holding only id "t2",
raises `KeyError` instead of leaving the tag reference unchanged — the
source's guard compares the tag's hash against the entry's own tag hashes
(vacuously true) rather than against the authoritative dict, then subscripts
`tags_dict` unconditionally. -/
theorem substitution_missing_tag_raises :
    ClockifyAPI.substitute_api_id_entities
        [{ obj_id := some "te1", start := 0, user := some (EntityV.ref ⟨some "u1"⟩),
           tags := some [EntityV.ref ⟨some "t1"⟩] }]
        none none (some [{ obj_id := some "t2", name := "tag-two" }])
      = Except.error "KeyError" := by
  rfl

/-- Claim C6: `substitute_api_id_entities` is a pure function of its four
arguments (it is a plain Lean function of them), and it is idempotent: with
the authoritative collections fixed, running the substitution on its own
output returns that output unchanged (and an aborted first run propagates
unchanged through the second). -/
theorem substitute_api_id_entities_idempotent (tes : List TimeEntry)
    (users : Option (List User))
    (pwt : Option (List (Project × List (Option Task))))
    (tags : Option (List Tag)) :
    (ClockifyAPI.substitute_api_id_entities tes users pwt tags).bind
        (fun l => ClockifyAPI.substitute_api_id_entities l users pwt tags)
      = ClockifyAPI.substitute_api_id_entities tes users pwt tags := by
  unfold ClockifyAPI.substitute_api_id_entities
  cases h : mapExcept (substituteEntry users pwt tags) tes with
  | error e => rfl
  | ok l =>
    have hfix := mapExcept_fix (fun a b hab => substituteEntry_fix hab) h
    simp [Except.bind, hfix]

end Clockify
